import Mathlib

/-!
Shallow embedding of `src/main.py` (YouTube playlist transcript automation).

External effects are modelled explicitly:
- a transcript is the list of its snippet texts (`TextFormatter` joins them
  with a newline);
- the two kinds of `yt_api.fetch` calls in `fetch_transcript_with_retry` are
  oracles: `enResult k` is the outcome of the English-preferring fetch at
  attempt `k` (`none` models the call raising an exception) and `anyResult`
  is the outcome of the unconstrained-language fallback fetch;
- the retry loop returns, besides its Python return value, the list of
  observable events (fetch calls and `time.sleep` waits) in order;
- the filesystem is an association list from paths to file records
  (content and last-modified time), and wall-clock readings are inputs.
-/

abbrev Transcript := List (List Char)

/-- Observable events of `fetch_transcript_with_retry`: the English-preferring
fetch at a given attempt index, the unconstrained fallback fetch, and a
`time.sleep` of a given number of seconds. -/
inductive FetchEvent where
  | fetchEn (attempt : Nat)
  | fetchAny
  | sleep (secs : Nat)
deriving DecidableEq, Repr

/-- The body of the `for attempt in range(max_retries)` loop of
`fetch_transcript_with_retry` (src/main.py lines 125-147). `a` is the current
value of `attempt`, `fuel` the number of remaining loop iterations; the top
level entry point starts at `a = 0` with `fuel = maxRetries.toNat`, which is
exactly the length of Python's `range(max_retries)`. Returns the Python
return value together with the event trace. -/
def fetchRetryAux (maxRetries : Int) (enResult : Nat → Option Transcript)
    (anyResult : Option Transcript) : Nat → Nat → Option Transcript × List FetchEvent
  | _, 0 => (none, [])
  | a, fuel + 1 =>
    match enResult a with
    | some t => (some t, [.fetchEn a])
    | none =>
      if (a : Int) = maxRetries - 1 then
        (anyResult, [.fetchEn a, .fetchAny])
      else
        let r := fetchRetryAux maxRetries enResult anyResult (a + 1) fuel
        (r.1, .fetchEn a :: .sleep (2 ^ a) :: r.2)

/-- `fetch_transcript_with_retry` (src/main.py lines 108-147), with the
`yt_api.fetch` outcomes supplied as oracles. `max_retries` is a Python `int`,
so it is modelled as `Int`; `range(max_retries)` is empty when
`maxRetries ≤ 0`. -/
def fetch_transcript_with_retry (maxRetries : Int) (enResult : Nat → Option Transcript)
    (anyResult : Option Transcript) : Option Transcript × List FetchEvent :=
  fetchRetryAux maxRetries enResult anyResult 0 maxRetries.toNat

/-- The expected event trace of the retry loop when every fetch call raises,
starting at attempt `a` with `fuel` iterations left. -/
def expTrace : Nat → Nat → List FetchEvent
  | _, 0 => []
  | a, 1 => [.fetchEn a, .fetchAny]
  | a, fuel + 2 => .fetchEn a :: .sleep (2 ^ a) :: expTrace (a + 1) (fuel + 1)

/-- Number of English-preferring fetch calls in a trace. -/
def countEn : List FetchEvent → Nat
  | [] => 0
  | .fetchEn _ :: rest => countEn rest + 1
  | _ :: rest => countEn rest

/-- Number of unconstrained-language fallback fetch calls in a trace. -/
def countAny : List FetchEvent → Nat
  | [] => 0
  | .fetchAny :: rest => countAny rest + 1
  | _ :: rest => countAny rest

/-- The last event of a trace, if any. -/
def lastEvent : List FetchEvent → Option FetchEvent
  | [] => none
  | [e] => some e
  | _ :: e :: rest => lastEvent (e :: rest)

/-- An oracle under which every English-preferring fetch call raises. -/
def noEn : Nat → Option Transcript := fun _ => none

/-- The duration of the sleep event immediately preceding the English fetch of
attempt `k` in a trace, if any. -/
def waitBeforeAttempt : List FetchEvent → Nat → Option Nat
  | [], _ => none
  | .fetchEn j :: rest, k => if j = k then none else waitBeforeAttempt rest k
  | .sleep w :: .fetchEn j :: rest, k =>
      if j = k then some w else waitBeforeAttempt (.fetchEn j :: rest) k
  | .sleep _ :: rest, k => waitBeforeAttempt rest k
  | .fetchAny :: rest, k => waitBeforeAttempt rest k

/-- The characters removed by `sanitize_filename`: the regex class
`[\\/*?:"<>|]` of src/main.py line 105. -/
def illegalFilenameChars : List Char := ['\\', '/', '*', '?', ':', '"', '<', '>', '|']

def isIllegalFilenameChar (c : Char) : Bool := illegalFilenameChars.contains c

/-- `sanitize_filename` (src/main.py lines 94-105): `re.sub` with a single
character class replaces each occurrence of a class character by `_`. -/
def sanitize_filename (title : List Char) : List Char :=
  title.map fun c => if isIllegalFilenameChar c then '_' else c

/-! ## Playlist URL validation

`validate_playlist_url` (src/main.py lines 75-91) uses
`re.match(r"(https?://)?(www\.)?(youtube\.com/playlist\?list=|youtu\.be/)[\w-]+", url)`.
`re.match` anchors at the start of the string only, so it succeeds exactly
when some prefix of `url` matches the pattern. The pattern is deterministic
(no alternative ever needs backtracking: each optional literal, when present
as a prefix, is the only way to continue), so a greedy left-to-right matcher
is faithful. `\w` is modelled over ASCII letters, digits and underscore. -/

/-- A word character of the regex class `[\w-]` restricted to ASCII,
together with the dash. -/
def isWordOrDash (c : Char) : Bool := c.isAlpha || c.isDigit || c = '_' || c = '-'

/-- Strip an exact literal from the front of a string; `none` when the
string does not start with the literal. -/
def dropLit : List Char → List Char → Option (List Char)
  | [], s => some s
  | _ :: _, [] => none
  | p :: ps, c :: cs => if c = p then dropLit ps cs else none

def schemeHttps : List Char := ['h', 't', 't', 'p', 's', ':', '/', '/']

def schemeHttp : List Char := ['h', 't', 't', 'p', ':', '/', '/']

def wwwDot : List Char := ['w', 'w', 'w', '.']

def hostPlaylist : List Char :=
  ['y', 'o', 'u', 't', 'u', 'b', 'e', '.', 'c', 'o', 'm', '/', 'p', 'l', 'a', 'y', 'l',
   'i', 's', 't', '?', 'l', 'i', 's', 't', '=']

def hostShort : List Char := ['y', 'o', 'u', 't', 'u', '.', 'b', 'e', '/']

/-- Whether `re.match` of the playlist pattern succeeds on `s` (a prefix of
`s` matches `(https?://)?(www\.)?(youtube\.com/playlist\?list=|youtu\.be/)[\w-]+`). -/
def matchesPlaylistShape (s : List Char) : Bool :=
  let s1 := match dropLit schemeHttps s with
    | some r => r
    | none => match dropLit schemeHttp s with
      | some r => r
      | none => s
  let s2 := match dropLit wwwDot s1 with
    | some r => r
    | none => s1
  let tail := match dropLit hostPlaylist s2 with
    | some r => some r
    | none => dropLit hostShort s2
  match tail with
  | some (c :: _) => isWordOrDash c
  | _ => false

inductive ValidationError where
  | invalidPlaylistUrl
deriving DecidableEq, Repr

/-- `validate_playlist_url` (src/main.py lines 75-91): returns the URL
unchanged when the pattern matches, raises `ValueError` otherwise. -/
def validate_playlist_url (url : List Char) : Except ValidationError (List Char) :=
  if matchesPlaylistShape url = true then .ok url else .error .invalidPlaylistUrl

/-! ## Filesystem, per-video processing and the main loop -/

structure Video where
  video_id : List Char
  title : List Char
deriving DecidableEq, Repr

structure FSFile where
  content : List Char
  mtime : Int
deriving DecidableEq, Repr

/-- The output directory, as an association list from paths to files;
the earliest entry for a path wins. -/
abbrev FS := List (List Char × FSFile)

def fsLookup : FS → List Char → Option FSFile
  | [], _ => none
  | (q, f) :: rest, p => if p = q then some f else fsLookup rest p

/-- `os.path.exists` on the modelled output directory. -/
def fsExists (fs : FS) (p : List Char) : Bool := (fsLookup fs p).isSome

/-- Writing a file stamps it with the current wall-clock time `t`. -/
def fsWrite (fs : FS) (p content : List Char) (t : Int) : FS := (p, ⟨content, t⟩) :: fs

/-- `TextFormatter().format_transcript`: joins the snippet texts with
newlines. -/
def format_transcript (tr : Transcript) : List Char := List.intercalate ['\n'] tr

/-- `os.path.join(output_folder, f"[{video_id}] - {title}.txt")` with the
already-sanitized title (src/main.py lines 226-229). -/
def outputPath (outputFolder : List Char) (v : Video) : List Char :=
  outputFolder ++ ['/'] ++ ['['] ++ v.video_id ++ [']', ' ', '-', ' '] ++
    sanitize_filename v.title ++ ['.', 't', 'x', 't']

/-- Exceptions that the `try` block of `process_video` can observe in this
model: the formatter call and the file write (src/main.py lines 245-247). -/
inductive PyErr where
  | formatError
  | writeError
deriving DecidableEq, Repr

/-- Per-video oracle: the value returned by `fetch_transcript_with_retry`
(`none` when every attempt failed — that function never raises), and fault
injection for the formatter call and the file write. -/
structure VideoEnv where
  fetchResult : Option Transcript
  formatExc : Bool
  writeExc : Bool
deriving DecidableEq, Repr

/-- Observable side effects of one `process_video` call. -/
inductive PEvent where
  | fetch
  | write (path : List Char)
deriving DecidableEq, Repr

/-- The `try` block of `process_video` (src/main.py lines 225-253).
On a raise the error carries the filesystem and event trace at that point;
`wTime` is the wall-clock time stamped on a successful write. -/
def process_video_body (env : VideoEnv) (video : Video) (fs : FS)
    (outputFolder : List Char) (wTime : Int) :
    Except (PyErr × FS × List PEvent) (Bool × FS × List PEvent) :=
  let path := outputPath outputFolder video
  if fsExists fs path then .ok (true, fs, [])
  else
    match env.fetchResult with
    | none => .ok (false, fs, [.fetch])
    | some tr =>
      if env.formatExc then .error (.formatError, fs, [.fetch])
      else if env.writeExc then .error (.writeError, fs, [.fetch])
      else .ok (true, fsWrite fs path (format_transcript tr) wTime, [.fetch, .write path])

/-- `process_video` (src/main.py lines 209-257): the `try` block wrapped by
the catch-all `except`, which turns any exception into `False`. -/
def process_video (env : VideoEnv) (video : Video) (fs : FS)
    (outputFolder : List Char) (wTime : Int) : Bool × FS × List PEvent :=
  match process_video_body env video fs outputFolder wTime with
  | .ok r => r
  | .error (_, fs2, tr) => (false, fs2, tr)

structure DownloadStats where
  total : Nat := 0
  success : Nat := 0
  skipped : Nat := 0
  failed : Nat := 0
deriving DecidableEq, Repr

structure RunState where
  fs : FS
  stats : DownloadStats
deriving DecidableEq, Repr

/-- One iteration of the loop in `main` (src/main.py lines 287-308):
run `process_video`, then classify a `True` outcome as success or skipped by
the 5-second modification-time heuristic, reading the wall clock as `cTime`
at classification. -/
def mainStep (env : VideoEnv) (wTime cTime : Int) (outputFolder : List Char)
    (video : Video) (s : RunState) : RunState :=
  match process_video env video s.fs outputFolder wTime with
  | (true, fs2, _) =>
    match fsLookup fs2 (outputPath outputFolder video) with
    | some f =>
      if cTime - f.mtime < 5 then ⟨fs2, { s.stats with success := s.stats.success + 1 }⟩
      else ⟨fs2, { s.stats with skipped := s.stats.skipped + 1 }⟩
    | none => ⟨fs2, s.stats⟩
  | (false, fs2, _) => ⟨fs2, { s.stats with failed := s.stats.failed + 1 }⟩

/-- The `for i, video in enumerate(playlist.videos, 1)` loop of `main`;
`envs`, `wT` and `cT` give each iteration its fetch/fault oracle and its
wall-clock readings. -/
def mainLoop (outputFolder : List Char) (envs : Nat → VideoEnv) (wT cT : Nat → Int) :
    List Video → Nat → RunState → RunState
  | [], _, s => s
  | v :: rest, i, s =>
    mainLoop outputFolder envs wT cT rest (i + 1) (mainStep (envs i) (wT i) (cT i) outputFolder v s)

/-- `fetch_playlist` (src/main.py lines 185-206): validation failure or a
remote listing failure (`remote = none`) both yield `None`. -/
def fetch_playlist (url : List Char) (remote : Option (List Video)) : Option (List Video) :=
  match validate_playlist_url url with
  | .error _ => none
  | .ok _ => remote

/-- `main` (src/main.py lines 260-313). `apiInit` is whether
`initialize_api` succeeded, `remote` the playlist listing oracle, `fs0` the
initial output directory. Returns the final output directory and the summary
statistics (`none` when the run aborts before the per-video loop and prints
no summary). -/
def mainRun (url outputFolder : List Char) (apiInit : Bool) (remote : Option (List Video))
    (envs : Nat → VideoEnv) (wT cT : Nat → Int) (fs0 : FS) : FS × Option DownloadStats :=
  if apiInit = false then (fs0, none)
  else
    match fetch_playlist url remote with
    | none => (fs0, none)
    | some videos =>
      let final := mainLoop outputFolder envs wT cT videos 1 ⟨fs0, { total := videos.length }⟩
      (final.fs, some final.stats)

/-! ## Concrete instances used by the closed witness theorems -/

/-- An oracle with a transcript available on every fetch call. -/
def alwaysSome : Nat → Option Transcript := fun _ => some [['x']]

def wVideo : Video := ⟨['v'], ['t']⟩

def wFS : FS := [(outputPath ['o'] wVideo, ⟨['c'], 0⟩)]

/-- A per-video oracle whose fetch succeeds and that injects no fault. -/
def wEnvOk : Nat → VideoEnv := fun _ => ⟨some [['h', 'i']], false, false⟩

/-- A per-video oracle whose fetch succeeds but whose formatter call raises. -/
def wEnvExc : Nat → VideoEnv := fun _ => ⟨some [['x']], true, false⟩

def zeroClock : Nat → Int := fun _ => 0

/-- A concrete URL accepted by the validator: `youtu.be/abc`. -/
def wUrl : List Char := hostShort ++ ['a', 'b', 'c']

/-! ## Theorems about the retry loop -/

theorem fetchRetryAux_allFail (m : Int) (fuel : Nat) :
    ∀ a : Nat, (a : Int) + fuel = m →
      fetchRetryAux m noEn none a fuel = (none, expTrace a fuel) := by
  induction fuel with
  | zero => intro a h; rfl
  | succ f ih =>
    intro a h
    obtain _ | f' := f
    · have ha : (a : Int) = m - 1 := by push_cast at h; omega
      simp [fetchRetryAux, expTrace, noEn, ha]
    · have ha : ¬ ((a : Int) = m - 1) := by push_cast at h; omega
      have h2 : ((a + 1 : Nat) : Int) + ((f' + 1 : Nat) : Int) = m := by push_cast at h ⊢; omega
      show (if (a : Int) = m - 1 then
              ((none : Option Transcript), [FetchEvent.fetchEn a, FetchEvent.fetchAny])
            else
              ((fetchRetryAux m noEn none (a + 1) (f' + 1)).1,
                FetchEvent.fetchEn a :: FetchEvent.sleep (2 ^ a) ::
                  (fetchRetryAux m noEn none (a + 1) (f' + 1)).2))
          = (none, expTrace a (f' + 1 + 1))
      rw [if_neg ha, ih (a + 1) h2]
      rfl

theorem countEn_expTrace (fuel : Nat) : ∀ a : Nat, countEn (expTrace a fuel) = fuel := by
  induction fuel with
  | zero => intro a; rfl
  | succ f ih =>
    intro a
    obtain _ | f' := f
    · rfl
    · show countEn (.fetchEn a :: .sleep (2 ^ a) :: expTrace (a + 1) (f' + 1)) = f' + 2
      simp [countEn, ih (a + 1)]

theorem countAny_expTrace (fuel : Nat) : ∀ a : Nat, 1 ≤ fuel → countAny (expTrace a fuel) = 1 := by
  induction fuel with
  | zero => intro a h; omega
  | succ f ih =>
    intro a _
    obtain _ | f' := f
    · rfl
    · show countAny (.fetchEn a :: .sleep (2 ^ a) :: expTrace (a + 1) (f' + 1)) = 1
      simp [countAny, ih (a + 1) (by omega)]

theorem expTrace_head (a fuel : Nat) : ∃ t, expTrace a (fuel + 1) = .fetchEn a :: t := by
  cases fuel <;> exact ⟨_, rfl⟩

theorem lastEvent_expTrace (fuel : Nat) :
    ∀ a : Nat, 1 ≤ fuel → lastEvent (expTrace a fuel) = some .fetchAny := by
  induction fuel with
  | zero => intro a h; omega
  | succ f ih =>
    intro a _
    obtain _ | f' := f
    · rfl
    · obtain ⟨t, ht⟩ := expTrace_head (a + 1) f'
      show lastEvent (.fetchEn a :: .sleep (2 ^ a) :: expTrace (a + 1) (f' + 1)) = some .fetchAny
      rw [ht]
      show lastEvent (.fetchEn (a + 1) :: t) = some .fetchAny
      rw [← ht]
      exact ih (a + 1) (by omega)

/-- C1: if every fetch call raises, `fetch_transcript_with_retry` with
`max_retries ≥ 1` performs the English-preferring fetch exactly
`max_retries` times, then performs exactly one unconstrained-language
fallback fetch (the last event of the run), and returns `None`; being a
total function of its oracles, it propagates no exception. -/
theorem fetch_retry_all_fail (m : Int) (h : 1 ≤ m) :
    (fetch_transcript_with_retry m noEn none).1 = none ∧
    countEn (fetch_transcript_with_retry m noEn none).2 = m.toNat ∧
    countAny (fetch_transcript_with_retry m noEn none).2 = 1 ∧
    lastEvent (fetch_transcript_with_retry m noEn none).2 = some .fetchAny := by
  have h0 : ((0 : Nat) : Int) + (m.toNat : Int) = m := by omega
  have key := fetchRetryAux_allFail m m.toNat 0 h0
  unfold fetch_transcript_with_retry
  rw [key]
  refine ⟨rfl, countEn_expTrace m.toNat 0, countAny_expTrace m.toNat 0 (by omega),
    lastEvent_expTrace m.toNat 0 (by omega)⟩

/-- Witness for C1 at `max_retries = 1`: the fallback fetch is performed on
the first (and only) failure before returning `None`. -/
theorem fetch_retry_all_fail_witness :
    (fetch_transcript_with_retry 1 noEn none).1 = none ∧
    countEn (fetch_transcript_with_retry 1 noEn none).2 = (1 : Int).toNat ∧
    countAny (fetch_transcript_with_retry 1 noEn none).2 = 1 ∧
    lastEvent (fetch_transcript_with_retry 1 noEn none).2 = some .fetchAny :=
  fetch_retry_all_fail 1 (by norm_num)

theorem waitBefore_expTrace (fuel : Nat) : ∀ a j : Nat, a < j → j < a + fuel →
    waitBeforeAttempt (expTrace a fuel) j = some (2 ^ (j - 1)) := by
  induction fuel with
  | zero => intro a j h1 h2; omega
  | succ f ih =>
    intro a j h1 h2
    obtain _ | f' := f
    · omega
    · obtain ⟨t, ht⟩ := expTrace_head (a + 1) f'
      show waitBeforeAttempt (.fetchEn a :: .sleep (2 ^ a) :: expTrace (a + 1) (f' + 1)) j
          = some (2 ^ (j - 1))
      rw [ht]
      have hne : ¬ (a = j) := by omega
      rcases Nat.lt_or_ge (a + 1) j with hgt | hle
      · have hne2 : ¬ (a + 1 = j) := by omega
        simp only [waitBeforeAttempt, if_neg hne, if_neg hne2]
        have hrec := ih (a + 1) j (by omega) (by omega)
        rw [ht] at hrec
        simp only [waitBeforeAttempt, if_neg hne2] at hrec
        exact hrec
      · have hj : j = a + 1 := by omega
        subst hj
        simp [waitBeforeAttempt, hne]

/-- Counterexample to C2 as stated: in the all-fail run with
`max_retries = 3`, the sleep immediately preceding attempt `k = 1` lasts
1 second, not `2 ^ 1 = 2` seconds (there is no sleep at all before attempt
`k = 0`). -/
theorem wait_before_attempt_counterexample :
    ¬ (waitBeforeAttempt (fetch_transcript_with_retry 3 noEn none).2 1 = some (2 ^ 1)) := by
  decide

/-- C2 (amended): in an all-fail run, the wait performed after the failed
attempt `k` — that is, the sleep immediately preceding attempt `k + 1` — is
`2 ^ k` seconds; so the waits computed at attempts `k = 0, 1, 2` are
1, 2 and 4 seconds, and there is no wait before attempt 0. -/
theorem backoff_after_attempt (m : Int) (k : Nat) (h : (k : Int) + 1 < m) :
    waitBeforeAttempt (fetch_transcript_with_retry m noEn none).2 (k + 1) = some (2 ^ k) := by
  have h0 : ((0 : Nat) : Int) + (m.toNat : Int) = m := by omega
  unfold fetch_transcript_with_retry
  rw [fetchRetryAux_allFail m m.toNat 0 h0]
  have hw := waitBefore_expTrace m.toNat 0 (k + 1) (by omega) (by omega)
  simpa using hw

/-- Witness for the amended C2 at `max_retries = 3`, `k = 0`: the sleep
before attempt 1 lasts `2 ^ 0 = 1` second. -/
theorem backoff_after_attempt_witness :
    waitBeforeAttempt (fetch_transcript_with_retry 3 noEn none).2 1 = some 1 := by
  have := backoff_after_attempt 3 0 (by norm_num)
  simpa using this

/-- C9: with `max_retries ≤ 0` the Python loop `for attempt in
range(max_retries)` runs zero iterations, so `fetch_transcript_with_retry`
returns `None` immediately, performing no fetch call at all — not even the
unconstrained-language fallback. -/
theorem fetch_retry_nonpositive (m : Int) (en : Nat → Option Transcript)
    (anyR : Option Transcript) (h : m ≤ 0) :
    fetch_transcript_with_retry m en anyR = (none, []) := by
  unfold fetch_transcript_with_retry
  have hm : m.toNat = 0 := by omega
  rw [hm]
  rfl

/-- Witness for C9 at `max_retries = 0`: even with transcripts available,
no fetch happens and `None` is returned. -/
theorem fetch_retry_nonpositive_witness :
    fetch_transcript_with_retry 0 alwaysSome (some [['x']]) = (none, []) :=
  fetch_retry_nonpositive 0 alwaysSome (some [['x']]) (by norm_num)

/-! ## Theorems about filename sanitization -/

/-- C4: `sanitize_filename` is total; it replaces each occurrence of a
character of `\ / * ? : " < > |` by `_` (leaving every other position
unchanged and preserving the length), and its result contains none of those
nine characters. -/
theorem sanitize_filename_total (title : List Char) :
    (∀ c, c ∈ sanitize_filename title → isIllegalFilenameChar c = false) ∧
    (sanitize_filename title).length = title.length ∧
    (∀ i : Nat, (sanitize_filename title).getD i ' ' =
      (if isIllegalFilenameChar (title.getD i ' ') then '_' else title.getD i ' ')) := by
  refine ⟨?_, ?_, ?_⟩
  · intro c hc
    rw [sanitize_filename, List.mem_map] at hc
    obtain ⟨d, _, hd⟩ := hc
    by_cases hill : isIllegalFilenameChar d = true
    · rw [if_pos hill] at hd
      subst hd
      decide
    · rw [if_neg hill] at hd
      subst hd
      simpa using hill
  · simp [sanitize_filename]
  · intro i
    induction title generalizing i with
    | nil =>
      show ' ' = if isIllegalFilenameChar ' ' then '_' else ' '
      decide
    | cons c cs ih =>
      cases i with
      | zero => rfl
      | succ j => exact ih j

/-- Witness for C4 on the title `a:b`. -/
theorem sanitize_filename_total_witness :
    isIllegalFilenameChar '_' = false ∧
    (sanitize_filename ['a', ':', 'b']).length = (['a', ':', 'b'] : List Char).length ∧
    (sanitize_filename ['a', ':', 'b']).getD 1 ' ' =
      (if isIllegalFilenameChar ((['a', ':', 'b'] : List Char).getD 1 ' ') then '_'
       else (['a', ':', 'b'] : List Char).getD 1 ' ') :=
  ⟨(sanitize_filename_total ['a', ':', 'b']).1 '_' (by decide),
   (sanitize_filename_total ['a', ':', 'b']).2.1,
   (sanitize_filename_total ['a', ':', 'b']).2.2 1⟩

/-! ## Theorems about URL validation -/

/-- C10: `re.match` anchors only at the start, so every string that merely
starts with a match of the pattern — an optional scheme, an optional `www.`,
one of the two host literals (including the non-playlist `youtu.be/` form),
one word-or-dash character, and then arbitrary trailing characters — is
accepted by `validate_playlist_url` and returned unchanged. -/
theorem validate_accepts_matching_start (scheme www host : List Char) (c : Char)
    (rest : List Char) (hs : scheme ∈ ([[], schemeHttp, schemeHttps] : List (List Char)))
    (hw : www ∈ ([[], wwwDot] : List (List Char)))
    (hh : host ∈ ([hostPlaylist, hostShort] : List (List Char)))
    (hc : isWordOrDash c = true) :
    validate_playlist_url (scheme ++ www ++ host ++ c :: rest) =
      .ok (scheme ++ www ++ host ++ c :: rest) := by
  have hm : matchesPlaylistShape (scheme ++ www ++ host ++ c :: rest) = true := by
    fin_cases hs <;> fin_cases hw <;> fin_cases hh <;>
      simp [matchesPlaylistShape, dropLit, schemeHttps, schemeHttp, wwwDot, hostPlaylist,
        hostShort, hc]
  rw [validate_playlist_url, if_pos hm]

/-- Witness for C10: the short URL `youtu.be/a !` (with trailing junk after
the matched character) is accepted unchanged even though it is not a
playlist URL. -/
theorem validate_accepts_matching_start_witness :
    validate_playlist_url ([] ++ [] ++ hostShort ++ 'a' :: [' ', '!']) =
      .ok ([] ++ [] ++ hostShort ++ 'a' :: [' ', '!']) :=
  validate_accepts_matching_start [] [] hostShort 'a' [' ', '!'] (by decide) (by decide)
    (by decide) (by decide)

/-- C5: when the playlist identifier does not match the required pattern,
the whole run aborts before any per-item processing: the output directory is
left exactly as it was (no file written) and no summary is produced. -/
theorem invalid_url_aborts (url outputFolder : List Char) (apiInit : Bool)
    (remote : Option (List Video)) (envs : Nat → VideoEnv) (wT cT : Nat → Int) (fs0 : FS)
    (h : matchesPlaylistShape url = false) :
    mainRun url outputFolder apiInit remote envs wT cT fs0 = (fs0, none) := by
  rw [mainRun]
  cases apiInit
  · simp
  · simp [fetch_playlist, validate_playlist_url, h]

/-- Witness for C5 on the non-matching identifier `x`: nothing is written
and no summary appears, whatever the playlist and fetch oracles offer. -/
theorem invalid_url_aborts_witness :
    mainRun ['x'] ['o'] true (some [wVideo]) wEnvOk zeroClock zeroClock [] = ([], none) :=
  invalid_url_aborts ['x'] ['o'] true (some [wVideo]) wEnvOk zeroClock zeroClock []
    (by decide)

/-! ## Theorems about per-video processing and the statistics loop -/

/-- C3: when the target output file already exists, `process_video` returns
`True` with no fetch call and no write (empty event trace), and the output
directory — in particular that file's content — is left unmodified,
whatever the fetch and fault oracles would have done. -/
theorem process_video_skips_existing (env : VideoEnv) (video : Video) (fs : FS)
    (outputFolder : List Char) (wTime : Int)
    (h : fsExists fs (outputPath outputFolder video) = true) :
    process_video env video fs outputFolder wTime = (true, fs, []) := by
  simp [process_video, process_video_body, h]

/-- Witness for C3: with the file for `wVideo` already present, the call
returns `True` and changes nothing, even though the oracle both offers a
transcript and would raise in the formatter. -/
theorem process_video_skips_existing_witness :
    process_video ⟨some [['x']], true, true⟩ wVideo wFS ['o'] 7 = (true, wFS, []) :=
  process_video_skips_existing ⟨some [['x']], true, true⟩ wVideo wFS ['o'] 7 (by rfl)

/-- C6: whenever the `try` block of `process_video` raises, the exception is
caught: `process_video` returns `False` with the filesystem as the raise
left it, the loop in `main` counts the video as failed, and the run
continues with the remaining videos instead of aborting. -/
theorem exception_counted_failed (envs : Nat → VideoEnv) (wT cT : Nat → Int)
    (outputFolder : List Char) (video : Video) (rest : List Video) (i : Nat) (s : RunState)
    (e : PyErr) (fs2 : FS) (tr : List PEvent)
    (hraise : process_video_body (envs i) video s.fs outputFolder (wT i) =
      .error (e, fs2, tr)) :
    process_video (envs i) video s.fs outputFolder (wT i) = (false, fs2, tr) ∧
    mainLoop outputFolder envs wT cT (video :: rest) i s =
      mainLoop outputFolder envs wT cT rest (i + 1)
        ⟨fs2, { s.stats with failed := s.stats.failed + 1 }⟩ := by
  have hpv : process_video (envs i) video s.fs outputFolder (wT i) = (false, fs2, tr) := by
    rw [process_video, hraise]
  refine ⟨hpv, ?_⟩
  rw [show mainLoop outputFolder envs wT cT (video :: rest) i s =
        mainLoop outputFolder envs wT cT rest (i + 1)
          (mainStep (envs i) (wT i) (cT i) outputFolder video s) from rfl]
  congr 1
  simp [mainStep, hpv]

/-- Witness for C6: a formatter exception on the only video is caught,
counted as failed, and the loop moves on. -/
theorem exception_counted_failed_witness :
    process_video (wEnvExc 0) wVideo [] ['o'] (zeroClock 0) = (false, [], [.fetch]) ∧
    mainLoop ['o'] wEnvExc zeroClock zeroClock [wVideo] 0 ⟨[], ⟨1, 0, 0, 0⟩⟩ =
      mainLoop ['o'] wEnvExc zeroClock zeroClock [] 1 ⟨[], ⟨1, 0, 0, 1⟩⟩ :=
  exception_counted_failed wEnvExc zeroClock zeroClock ['o'] wVideo [] 0 ⟨[], ⟨1, 0, 0, 0⟩⟩
    .formatError [] [.fetch] (by rfl)

/-- C7: whenever `process_video` reports success and the target file exists
at classification time, the loop in `main` classifies the video as a success
precisely when the file's last-modified timestamp is within 5 seconds of the
wall clock read at classification (`time.time() - mod_time < 5`), and as
skipped otherwise. -/
theorem classification_heuristic (env : VideoEnv) (wTime cTime : Int)
    (outputFolder : List Char) (video : Video) (s : RunState) (f : FSFile)
    (hsucc : (process_video env video s.fs outputFolder wTime).1 = true)
    (hfile : fsLookup (process_video env video s.fs outputFolder wTime).2.1
      (outputPath outputFolder video) = some f) :
    (mainStep env wTime cTime outputFolder video s).stats =
      (if cTime - f.mtime < 5 then { s.stats with success := s.stats.success + 1 }
       else { s.stats with skipped := s.stats.skipped + 1 }) := by
  rw [mainStep]
  rcases hpv : process_video env video s.fs outputFolder wTime with ⟨b, fs2, tr⟩
  rw [hpv] at hsucc hfile
  simp only at hsucc hfile
  subst hsucc
  simp only [hfile]
  split <;> rfl

/-- Witness for C7: a pre-existing file last modified at time 0, classified
at time 100, is counted as skipped. -/
theorem classification_heuristic_witness :
    (mainStep (wEnvOk 0) 0 100 ['o'] wVideo ⟨wFS, ⟨1, 0, 0, 0⟩⟩).stats = ⟨1, 0, 1, 0⟩ := by
  have h := classification_heuristic (wEnvOk 0) 0 100 ['o'] wVideo ⟨wFS, ⟨1, 0, 0, 0⟩⟩
    ⟨['c'], 0⟩ (by rfl) (by rfl)
  simpa using h

theorem mainStep_stats (env : VideoEnv) (wTime cTime : Int) (outputFolder : List Char)
    (video : Video) (s : RunState) :
    (mainStep env wTime cTime outputFolder video s).stats.total = s.stats.total ∧
    (mainStep env wTime cTime outputFolder video s).stats.success +
        (mainStep env wTime cTime outputFolder video s).stats.skipped +
        (mainStep env wTime cTime outputFolder video s).stats.failed ≤
      s.stats.success + s.stats.skipped + s.stats.failed + 1 := by
  rw [mainStep]
  split
  · split
    · split
      · exact ⟨rfl, by
          show s.stats.success + 1 + s.stats.skipped + s.stats.failed ≤
            s.stats.success + s.stats.skipped + s.stats.failed + 1
          omega⟩
      · exact ⟨rfl, by
          show s.stats.success + (s.stats.skipped + 1) + s.stats.failed ≤
            s.stats.success + s.stats.skipped + s.stats.failed + 1
          omega⟩
    · exact ⟨rfl, by
        show s.stats.success + s.stats.skipped + s.stats.failed ≤
          s.stats.success + s.stats.skipped + s.stats.failed + 1
        omega⟩
  · exact ⟨rfl, by
      show s.stats.success + s.stats.skipped + (s.stats.failed + 1) ≤
        s.stats.success + s.stats.skipped + s.stats.failed + 1
      omega⟩

theorem mainLoop_stats (outputFolder : List Char) (envs : Nat → VideoEnv)
    (wT cT : Nat → Int) (videos : List Video) : ∀ (i : Nat) (s : RunState),
    (mainLoop outputFolder envs wT cT videos i s).stats.total = s.stats.total ∧
    (mainLoop outputFolder envs wT cT videos i s).stats.success +
        (mainLoop outputFolder envs wT cT videos i s).stats.skipped +
        (mainLoop outputFolder envs wT cT videos i s).stats.failed ≤
      s.stats.success + s.stats.skipped + s.stats.failed + videos.length := by
  induction videos with
  | nil => intro i s; exact ⟨rfl, by simp [mainLoop]⟩
  | cons v rest ih =>
    intro i s
    rw [show mainLoop outputFolder envs wT cT (v :: rest) i s =
          mainLoop outputFolder envs wT cT rest (i + 1)
            (mainStep (envs i) (wT i) (cT i) outputFolder v s) from rfl]
    obtain ⟨g1, g2⟩ := mainStep_stats (envs i) (wT i) (cT i) outputFolder v s
    obtain ⟨h1, h2⟩ := ih (i + 1) (mainStep (envs i) (wT i) (cT i) outputFolder v s)
    refine ⟨by rw [h1, g1], ?_⟩
    simp only [List.length_cons]
    omega

/-- C8: every run that reaches the summary satisfies
`success + skipped + failed ≤ total`, with `total` fixed at run start to the
playlist length; the counting code guarantees no more than that inequality,
since a `True` outcome whose file is missing at classification time
increments neither `success` nor `skipped`. -/
theorem summary_counter_invariant (url outputFolder : List Char) (apiInit : Bool)
    (videos : List Video) (envs : Nat → VideoEnv) (wT cT : Nat → Int) (fs0 fsF : FS)
    (stats : DownloadStats)
    (h : mainRun url outputFolder apiInit (some videos) envs wT cT fs0 = (fsF, some stats)) :
    stats.total = videos.length ∧
    stats.success + stats.skipped + stats.failed ≤ stats.total := by
  rw [mainRun] at h
  cases apiInit
  · simp at h
  · rw [if_neg (by simp : ¬ (true = false)), fetch_playlist, validate_playlist_url] at h
    by_cases hv : matchesPlaylistShape url = true
    · rw [if_pos hv] at h
      have h3 : (mainLoop outputFolder envs wT cT videos 1
          ⟨fs0, { total := videos.length }⟩).stats = stats := by
        have h2 := congrArg Prod.snd h
        simpa using h2
      obtain ⟨g1, g2⟩ := mainLoop_stats outputFolder envs wT cT videos 1
        ⟨fs0, { total := videos.length }⟩
      have g1h : (mainLoop outputFolder envs wT cT videos 1
          ⟨fs0, { total := videos.length }⟩).stats.total = videos.length := g1
      have g2h : (mainLoop outputFolder envs wT cT videos 1
            ⟨fs0, { total := videos.length }⟩).stats.success +
          (mainLoop outputFolder envs wT cT videos 1
            ⟨fs0, { total := videos.length }⟩).stats.skipped +
          (mainLoop outputFolder envs wT cT videos 1
            ⟨fs0, { total := videos.length }⟩).stats.failed ≤
          0 + 0 + 0 + videos.length := g2
      rw [← h3]
      exact ⟨g1h, by omega⟩
    · rw [if_neg hv] at h
      simp at h

/-- Witness for C8: a run over the one-video playlist `[wVideo]` behind the
valid URL `youtu.be/abc` reaches the summary with
`total = 1, success = 1, skipped = 0, failed = 0`. -/
theorem summary_counter_invariant_witness :
    (⟨1, 1, 0, 0⟩ : DownloadStats).total = [wVideo].length ∧
    (⟨1, 1, 0, 0⟩ : DownloadStats).success + (⟨1, 1, 0, 0⟩ : DownloadStats).skipped +
        (⟨1, 1, 0, 0⟩ : DownloadStats).failed ≤ (⟨1, 1, 0, 0⟩ : DownloadStats).total :=
  summary_counter_invariant wUrl ['o'] true [wVideo] wEnvOk zeroClock zeroClock []
    (fsWrite [] (outputPath ['o'] wVideo) (format_transcript [['h', 'i']]) 0)
    ⟨1, 1, 0, 0⟩ (by rfl)
